import Mathlib

/-!
Formal model of the live call session engine of the youraisolution server
(`server.js`).  The subsystems modelled here are the ones the specification
describes: the text sanitization pipeline `stripEmojisAndFormatting`, the
per-turn language-detection debounce of the WebSocket (ConversationRelay)
binding, the model-directed `detected_language` directive parsing and
stripping, the 3-minute trial clock of both transport bindings, the
business-session fallback lookup `getActiveSession`, and the incoming-call
handler with its trial ledger.

Strings are modelled as `List Char` (JavaScript strings under the `u` regex
flag act on code points, which is what `Char` is).  Timestamps are `Int`
milliseconds as produced by `Date.now()`.  The remote completion call and the
wall clock are parameters of the turn functions: a turn function receives the
clock value at each point where the JavaScript reads `Date.now()`, and the
outcome of the `anthropic.messages.create` call.
-/

namespace YourAISolution

/-- Character used for a single quote (codepoint 39), kept out of string
literals. -/
def apoC : Char := Char.ofNat 39

/-- Opening curly brace character (codepoint 123). -/
def obr : Char := Char.ofNat 123

/-- Closing curly brace character (codepoint 125). -/
def cbr : Char := Char.ofNat 125

/-- Backtick character (codepoint 96). -/
def btk : Char := Char.ofNat 96

/-- Bullet character U+2022, one of the list markers the bullet regex removes. -/
def bulletDot : Char := Char.ofNat 0x2022

/-- JavaScript regex `\s` character class (WhiteSpace plus LineTerminator):
space, tab, LF, VT, FF, CR, NBSP, and the Unicode space separators, as used by
the sanitizer regexes and by `String.prototype.trim`. -/
def isJsWs (c : Char) : Bool :=
  c = ' ' || c = '\t' || c = '\n' || c.toNat = 11 || c.toNat = 12 || c = '\r' ||
  c.toNat = 0xa0 || c.toNat = 0x1680 || (0x2000 ≤ c.toNat && c.toNat ≤ 0x200a) ||
  c.toNat = 0x2028 || c.toNat = 0x2029 || c.toNat = 0x202f || c.toNat = 0x205f ||
  c.toNat = 0x3000 || c.toNat = 0xfeff

/-- Line terminators recognised by a multiline `^` anchor in JavaScript:
LF, CR, LS, PS. -/
def isLineTerm (c : Char) : Bool :=
  c = '\n' || c = '\r' || c.toNat = 0x2028 || c.toNat = 0x2029

/-- One codepoint-range removal, the shape of each of the nine emoji
`replace(/[\u{lo}-\u{hi}]/gu, '')` passes of `stripEmojisAndFormatting`. -/
def removeRange (lo hi : Nat) (l : List Char) : List Char :=
  l.filter (fun c => !(lo ≤ c.toNat && c.toNat ≤ hi))

/-- Embedding of `replace(/\*\*/g, '')`: drop each left-to-right
non-overlapping pair of consecutive asterisks. -/
def removeDoubleStar : List Char → List Char
  | '*' :: '*' :: rest => removeDoubleStar rest
  | c :: rest => c :: removeDoubleStar rest
  | [] => []

/-- Helper for the `#{1,6}\s` header regex: called just after a first hash
with `k` hashes consumed so far; returns the remainder after the match, or
`none` when the run of hashes starting here cannot match (a run longer than 6,
or a run not followed by whitespace). -/
def headerTail : Nat → List Char → Option (List Char)
  | _, [] => none
  | k, c :: rest =>
    if c = '#' then
      if 6 ≤ k then none else headerTail (k + 1) rest
    else if isJsWs c then some rest
    else none

/-- Fuelled scan embedding `replace(/#{1,6}\s/g, '')`: at each position, one
to six hashes followed by one whitespace character are removed; otherwise the
scan advances one character, exactly as the regex engine does. -/
def stripHeadersAux : Nat → List Char → List Char
  | 0, l => l
  | _ + 1, [] => []
  | fuel + 1, c :: rest =>
    if c = '#' then
      match headerTail 1 rest with
      | some rest2 => stripHeadersAux fuel rest2
      | none => c :: stripHeadersAux fuel rest
    else c :: stripHeadersAux fuel rest

/-- Embedding of `replace(/#{1,6}\s/g, '')`. -/
def stripHeaders (l : List Char) : List Char :=
  stripHeadersAux l.length l

/-- Helper for the lazy strikethrough regex `~~(.*?)~~`: given the characters
after an opening pair of tildes, return the lazily matched content (stopping
at the first closing pair) and the remainder after it.  A line terminator in
between makes the match fail because `.` does not cross lines. -/
def findTildeClose : List Char → Option (List Char × List Char)
  | '~' :: '~' :: rest => some ([], rest)
  | c :: rest =>
    if c = '\n' || c = '\r' || c.toNat = 0x2028 || c.toNat = 0x2029 then none
    else (findTildeClose rest).map (fun p => (c :: p.1, p.2))
  | [] => none

/-- Fuelled scan embedding `replace` of the pattern `~~(.*?)~~` by the captured group: a matched pair of
double tildes is dropped keeping the content; on failure the scan advances a
single character. -/
def stripStrikeAux : Nat → List Char → List Char
  | 0, l => l
  | _ + 1, [] => []
  | fuel + 1, '~' :: '~' :: rest =>
    (match findTildeClose rest with
     | some (content, rem) => content ++ stripStrikeAux fuel rem
     | none => '~' :: stripStrikeAux fuel ('~' :: rest))
  | fuel + 1, c :: rest => c :: stripStrikeAux fuel rest

/-- Embedding of the `replace` of `~~(.*?)~~` by the captured group. -/
def stripStrike (l : List Char) : List Char :=
  stripStrikeAux l.length l

/-- Bullet characters of the char class `[-•*]`. -/
def isBulletChar (c : Char) : Bool :=
  c = '-' || c = bulletDot || c = '*'

/-- Attempted match of `[\s]*[-•*]\s` at a line-start position: a maximal
whitespace run, then a bullet character, then one whitespace character.
Returns that final whitespace character (whose identity decides whether the
position after the match is again a line start) and the remainder. -/
def bulletTail : List Char → Option (Char × List Char)
  | [] => none
  | c :: rest =>
    if isJsWs c then bulletTail rest
    else if isBulletChar c then
      match rest with
      | w :: rest2 => if isJsWs w then some (w, rest2) else none
      | [] => none
    else none

/-- Fuelled scan embedding `replace(/^[\s]*[-•*]\s/gm, '')`.  The boolean
tracks whether the current position is a line start (position 0 or just after
a line terminator). -/
def stripBulletsAux : Nat → Bool → List Char → List Char
  | 0, _, l => l
  | _ + 1, _, [] => []
  | fuel + 1, atStart, c :: rest =>
    if atStart then
      match bulletTail (c :: rest) with
      | some (w, rest2) => stripBulletsAux fuel (isLineTerm w) rest2
      | none => c :: stripBulletsAux fuel (isLineTerm c) rest
    else c :: stripBulletsAux fuel (isLineTerm c) rest

/-- Embedding of `replace(/^[\s]*[-•*]\s/gm, '')`. -/
def stripBullets (l : List Char) : List Char :=
  stripBulletsAux l.length true l

/-- Attempted match of `\d+\.\s` at a line-start position, with `k` digits
already consumed: more digits, a dot, then one whitespace character. -/
def numTail : Nat → List Char → Option (Char × List Char)
  | _, [] => none
  | k, c :: rest =>
    if c.isDigit then numTail (k + 1) rest
    else if c = '.' && 1 ≤ k then
      match rest with
      | w :: rest2 => if isJsWs w then some (w, rest2) else none
      | [] => none
    else none

/-- Fuelled scan embedding `replace(/^\d+\.\s/gm, '')`. -/
def stripNumsAux : Nat → Bool → List Char → List Char
  | 0, _, l => l
  | _ + 1, _, [] => []
  | fuel + 1, atStart, c :: rest =>
    if atStart then
      match numTail 0 (c :: rest) with
      | some (w, rest2) => stripNumsAux fuel (isLineTerm w) rest2
      | none => c :: stripNumsAux fuel (isLineTerm c) rest
    else c :: stripNumsAux fuel (isLineTerm c) rest

/-- Embedding of `replace(/^\d+\.\s/gm, '')`. -/
def stripNums (l : List Char) : List Char :=
  stripNumsAux l.length true l

/-- Fuelled embedding of `replace(/\s+/g, ' ')`: each maximal whitespace run
collapses to a single space. -/
def collapseWsAux : Nat → List Char → List Char
  | 0, l => l
  | _ + 1, [] => []
  | fuel + 1, c :: rest =>
    if isJsWs c then ' ' :: collapseWsAux fuel (rest.dropWhile isJsWs)
    else c :: collapseWsAux fuel rest

/-- Embedding of `replace(/\s+/g, ' ')`. -/
def collapseWs (l : List Char) : List Char :=
  collapseWsAux l.length l

/-- Embedding of `String.prototype.trim`: drop JavaScript whitespace from both
ends. -/
def jsTrim (l : List Char) : List Char :=
  ((l.dropWhile isJsWs).reverse.dropWhile isJsWs).reverse

/-- Embedding of the helper `stripEmojisAndFormatting(text)` of `server.js`:
nine emoji codepoint-range removals, then the markdown passes (`**`, `*`,
`#{1,6}\s`, backticks, `~~…~~`), then the list-marker passes
(`^[\s]*[-•*]\s`, `^\d+\.\s`, both multiline), then whitespace collapsing and
a trim, in exactly the order of the source. -/
def stripEmojisAndFormatting (l : List Char) : List Char :=
  let c1 := removeRange 0x1F600 0x1F64F l
  let c2 := removeRange 0x1F300 0x1F5FF c1
  let c3 := removeRange 0x1F680 0x1F6FF c2
  let c4 := removeRange 0x1F1E0 0x1F1FF c3
  let c5 := removeRange 0x2600 0x26FF c4
  let c6 := removeRange 0x2700 0x27BF c5
  let c7 := removeRange 0xFE00 0xFE0F c6
  let c8 := removeRange 0x1F900 0x1F9FF c7
  let c9 := removeRange 0x1FA00 0x1FA6F c8
  let c10 := removeDoubleStar c9
  let c11 := c10.filter (fun c => c ≠ '*')
  let c12 := stripHeaders c11
  let c13 := c12.filter (fun c => c ≠ btk)
  let c14 := stripStrike c13
  let c15 := stripBullets c14
  let c16 := stripNums c15
  jsTrim (collapseWs c16)

/-- Embedding of the constant `LANGUAGE_CODE_MAP` of `server.js`, mapping
simplified language codes to full locale codes. -/
def LANGUAGE_CODE_MAP (c : String) : Option String :=
  if c = "nl" then some "nl-NL"
  else if c = "en" then some "en-US"
  else if c = "de" then some "de-DE"
  else if c = "fr" then some "fr-FR"
  else if c = "es" then some "es-ES"
  else if c = "ar" then some "ar-SA"
  else if c = "tr" then some "tr-TR"
  else if c = "pl" then some "pl-PL"
  else if c = "pt" then some "pt-BR"
  else if c = "it" then some "it-IT"
  else none

/-- Expression `LANGUAGE_CODE_MAP[detectedLang] || detectedLang` of the
WebSocket language-detection block. -/
def fullLangCode (d : String) : String :=
  (LANGUAGE_CODE_MAP d).getD d

/-- Embedding of the inline `langMap` of `/api/voice/incoming`, mapping
language display names to locale codes for the primary-language choice. -/
def langNameMap (n : String) : Option String :=
  if n = "Dutch" then some "nl-NL"
  else if n = "English" then some "en-US"
  else if n = "German" then some "de-DE"
  else if n = "French" then some "fr-FR"
  else if n = "Spanish" then some "es-ES"
  else if n = "Arabic" then some "ar-SA"
  else if n = "Turkish" then some "tr-TR"
  else if n = "Polish" then some "pl-PL"
  else if n = "Portuguese" then some "pt-BR"
  else if n = "Italian" then some "it-IT"
  else none

/-- Role of a conversation-history entry. -/
inductive Role where
  | user
  | assistant
deriving DecidableEq, Repr

/-- Mutable per-call state stored in the `callSessions` map (the fields the
session engine reads or writes; the immutable `businessInfo` snapshot is kept
as the primary-language choice derived from it, which is all the engine uses
of it after call start). -/
structure CallSession where
  conversationHistory : List (Role × List Char)
  startTime : Int
  fromNumber : String
  currentLanguage : String
  lastDetectedLanguage : Option String
  languageDetectionCount : Nat
deriving DecidableEq, Repr

/-- Embedding of the language-detection debounce of the WebSocket message
handler (the block guarded by `if (detectedLang)`).  Returns the updated
session and, when a switch fires, the language code sent by
`sendLanguageSwitch`.  An absent or empty `detectedLang` is falsy in
JavaScript and skips the whole block. -/
def detectUpdate (s : CallSession) (detectedLang : Option String) :
    CallSession × Option String :=
  match detectedLang with
  | none => (s, none)
  | some d =>
    if d = "" then (s, none)
    else
      let full := fullLangCode d
      if full = s.currentLanguage then
        ({ s with lastDetectedLanguage := none, languageDetectionCount := 0 }, none)
      else if s.lastDetectedLanguage = some full then
        if 2 ≤ s.languageDetectionCount + 1 then
          ({ s with currentLanguage := full, languageDetectionCount := 0,
                    lastDetectedLanguage := none }, some full)
        else
          ({ s with languageDetectionCount := s.languageDetectionCount + 1 }, none)
      else
        ({ s with lastDetectedLanguage := some full, languageDetectionCount := 1 }, none)

/-- Literal characters of the regex fragment `"detected_language"`
(including both quotes). -/
def dlKey : List Char := ("\"detected_language\"").toList

/-- Decide whether `l` begins with `key`. -/
def beginsWith : List Char → List Char → Bool
  | _, [] => true
  | [], _ :: _ => false
  | c :: cs, k :: ks => c = k && beginsWith cs ks

/-- Decide whether `key` occurs as a contiguous sublist of `l`. -/
def hasSub (key : List Char) : List Char → Bool
  | [] => beginsWith [] key
  | c :: rest => beginsWith (c :: rest) key || hasSub key rest

/-- Split a list at its first closing brace: the characters before it and the
remainder after it. -/
def splitAtClose : List Char → Option (List Char × List Char)
  | [] => none
  | c :: rest =>
    if c = cbr then some ([], rest)
    else (splitAtClose rest).map (fun p => (c :: p.1, p.2))

/-- First match of the directive regex
`\{[^}]*"detected_language"[^}]*\}` within `l`, as the triple
(text before the match, matched text, text after the match).  A candidate
match starts at an opening brace, ends at the first closing brace after it,
and succeeds when the segment between them contains the key; on failure the
scan advances one character, as the regex engine does. -/
def findSplit : List Char → Option (List Char × List Char × List Char)
  | [] => none
  | c :: rest =>
    if c = obr then
      match splitAtClose rest with
      | some (seg, rem) =>
        if hasSub dlKey seg then some ([], obr :: (seg ++ [cbr]), rem)
        else (findSplit rest).map (fun t => (c :: t.1, t.2.1, t.2.2))
      | none => none
    else (findSplit rest).map (fun t => (c :: t.1, t.2.1, t.2.2))

/-- Embedding of `reply.match(/\{[^}]*"detected_language"[^}]*\}/)`,
returning the matched text. -/
def findDirective (l : List Char) : Option (List Char) :=
  (findSplit l).map (fun t => t.2.1)

/-- JSON whitespace characters accepted between tokens by `JSON.parse`. -/
def isJsonWs (c : Char) : Bool :=
  c = ' ' || c = '\t' || c = '\n' || c = '\r'

/-- Characters other than a double quote, the content class of a JSON string
value. -/
def notQuote (c : Char) : Bool := c ≠ '"'

/-- Drop `key` from the front of `l`, or fail when `l` does not begin with
it. -/
def dropKey : List Char → List Char → Option (List Char)
  | l, [] => some l
  | [], _ :: _ => none
  | c :: cs, k :: ks => if c = k then dropKey cs ks else none

/-- Model of `JSON.parse(match)` followed by reading `detected_language` of
the parsed object: accepts the canonical single-key object with the key
`detected_language` (with any JSON whitespace between tokens) and returns the
string value; any other shape yields `none`, which is how the surrounding
`try`/`catch` treats a parse failure or a missing key. -/
def parseDirective (l : List Char) : Option (List Char) :=
  match l with
  | [] => none
  | c :: rest =>
    if c = obr then
      match dropKey (rest.dropWhile isJsonWs) dlKey with
      | none => none
      | some r2 =>
        match r2.dropWhile isJsonWs with
        | ':' :: r3 =>
          match r3.dropWhile isJsonWs with
          | q :: r5 =>
            if q = '"' then
              match r5.dropWhile notQuote with
              | _ :: r7 =>
                if r7.dropWhile isJsonWs = [cbr] then some (r5.takeWhile notQuote)
                else none
              | [] => none
            else none
          | [] => none
        | _ => none
    else none

/-- Fuelled embedding of
`reply.replace(/\{[^}]*"detected_language"[^}]*\}/g, '')`: repeatedly drop
the first match and continue after it. -/
def removeDirectivesAux : Nat → List Char → List Char
  | 0, l => l
  | fuel + 1, l =>
    match findSplit l with
    | none => l
    | some (b, _, a) => b ++ removeDirectivesAux fuel a

/-- Embedding of the global directive-stripping replace. -/
def removeDirectives (l : List Char) : List Char :=
  removeDirectivesAux l.length l

/-- Outbound WebSocket messages the ConversationRelay handler sends: a
`text` message whose token is spoken (always with `last: true`), or the
`language` control message of `sendLanguageSwitch` (which sets both
`ttsLanguage` and `transcriptionLanguage` to the same code). -/
inductive WsOut where
  | text : List Char → WsOut
  | langSwitch : String → WsOut
deriving DecidableEq, Repr

/-- Closing message sent when the 3-minute trial clock has run out. -/
def closingMsg : List Char :=
  ("Thanks for trying Your AI Solution! Visit youraisolution.nl to get this for your business. Goodbye!").toList

/-- Error message of the WebSocket handler when the completion call throws. -/
def wsErrMsg : List Char :=
  ("I" ++ String.mk [apoC] ++ "m having trouble processing that. Could you try asking again?").toList

/-- Whether the WebSocket binding wraps `anthropic.messages.create` in a
deadline: it does not — the call is a bare `await` with no `Promise.race`. -/
def wsApiDeadlineMs : Option Nat := none

/-- Deadline the HTTP binding imposes on `anthropic.messages.create` via
`Promise.race` with a 10000 ms `setTimeout` rejection. -/
def httpApiDeadlineMs : Option Nat := some 10000

/-- Embedding of the model-directed switch block of the WebSocket handler:
extract the `detected_language` directive from the reply, and when it names a
mapped language different from the current one, switch to it immediately and
emit the `sendLanguageSwitch` control message.  Falsy or unmapped values are
ignored. -/
def claudeForce (s1 : CallSession) (reply : List Char) : CallSession × List WsOut :=
  match
    (match findDirective reply with
     | some m => parseDirective m
     | none => none) with
  | some v =>
    if v = [] then (s1, [])
    else
      match LANGUAGE_CODE_MAP (String.mk v) with
      | some newLang =>
        if newLang = s1.currentLanguage then (s1, [])
        else ({ s1 with currentLanguage := newLang }, [WsOut.langSwitch newLang])
      | none => (s1, [])
  | none => (s1, [])

/-- Embedding of one `prompt` message of the WebSocket handler.  Parameters:
the session, the transcribed `voicePrompt`, the `lang` hint of the message,
the clock value at the time-limit check, the outcome of the completion call
(`none` models a thrown error, `some reply` the returned text), and the clock
value when the completion returns.  Returns the session afterwards (`none`
when it was deleted and the socket closed) and the ordered outbound
messages.  The handler performs no time-limit check after the completion
returns, so `postNow` is never read. -/
def wsTurn (s : CallSession) (voicePrompt : List Char) (lang : Option String)
    (preNow : Int) (apiResult : Option (List Char)) (postNow : Int) :
    Option CallSession × List WsOut :=
  if 180000 ≤ preNow - s.startTime then
    (none, [WsOut.text closingMsg])
  else
    let d := detectUpdate s lang
    let outs1 : List WsOut :=
      match d.2 with
      | some code => [WsOut.langSwitch code]
      | none => []
    match apiResult with
    | none => (some d.1, outs1 ++ [WsOut.text wsErrMsg])
    | some reply =>
      let forced := claudeForce d.1 reply
      let cleanReply := jsTrim (removeDirectives reply)
      let ttsReply := stripEmojisAndFormatting cleanReply
      let s3 := { forced.1 with conversationHistory :=
                    forced.1.conversationHistory ++
                      [(Role.user, voicePrompt), (Role.assistant, reply)] }
      (some s3, outs1 ++ forced.2 ++ [WsOut.text ttsReply])

/-- Embedding of the connection gate of the WebSocket server: a connection
whose `CallSid` has no entry in `callSessions` is closed immediately. -/
def wsConnect (sessions : List (String × CallSession)) (callSid : String) : Bool :=
  (sessions.lookup callSid).isSome

/-- TwiML verbs the HTTP binding emits (the `voice` attribute is the constant
`Polly.Joanna` throughout and is omitted). -/
inductive Tw where
  | say : List Char → Tw
  | gather
  | hangup
deriving DecidableEq, Repr

/-- Response of one `/api/voice/process` request: either the TwiML script
that was sent, or a crash — the `catch` block reads `apiStartTime`, a `const`
scoped inside the `try` block, so its first statement throws a
`ReferenceError` and no TwiML is ever sent. -/
inductive HttpResult where
  | ok : List Tw → HttpResult
  | crashed
deriving DecidableEq, Repr

/-- Outcome of the raced completion call of the HTTP binding. -/
inductive ApiOutcome where
  | success : List Char → ApiOutcome
  | timeout
  | apiError
deriving DecidableEq, Repr

/-- Session-expired message of `/api/voice/process`. -/
def expiredMsg : List Char :=
  ("Sorry, your session has expired. Please call again. Goodbye!").toList

/-- Repeat-request message for an empty `SpeechResult`. -/
def repeatMsg : List Char :=
  ("Sorry, I didn" ++ String.mk [apoC] ++ "t catch that. Could you please repeat?").toList

/-- Remove the entry with the given key from the session map
(`callSessions.delete`). -/
def deleteKey (k : String) (m : List (String × CallSession)) :
    List (String × CallSession) :=
  m.filter (fun p => p.1 ≠ k)

/-- Replace the value stored under an existing key (`Map.set` on a present
key keeps the insertion position). -/
def setEntry (m : List (String × CallSession)) (k : String) (v : CallSession) :
    List (String × CallSession) :=
  m.map (fun p => if p.1 = k then (k, v) else p)

/-- Embedding of one `/api/voice/process` request of the HTTP binding.
Parameters as in `wsTurn`; `preNow` is the clock at the first time-limit
check, `postNow` the clock at the re-check performed after the completion
returns.  Timeout and error outcomes crash before any TwiML is sent (see
`HttpResult.crashed`). -/
def httpProcess (sessions : List (String × CallSession)) (callSid : String)
    (speechResult : Option (List Char)) (preNow : Int) (api : ApiOutcome)
    (postNow : Int) : List (String × CallSession) × HttpResult :=
  match sessions.lookup callSid with
  | none => (sessions, HttpResult.ok [Tw.say expiredMsg, Tw.hangup])
  | some s =>
    if 180000 ≤ preNow - s.startTime then
      (deleteKey callSid sessions, HttpResult.ok [Tw.say closingMsg, Tw.hangup])
    else
      match speechResult with
      | none => (sessions, HttpResult.ok [Tw.say repeatMsg, Tw.gather])
      | some speech =>
        if speech = [] then (sessions, HttpResult.ok [Tw.say repeatMsg, Tw.gather])
        else
          match api with
          | ApiOutcome.timeout => (sessions, HttpResult.crashed)
          | ApiOutcome.apiError => (sessions, HttpResult.crashed)
          | ApiOutcome.success reply =>
            let cleanReply := stripEmojisAndFormatting reply
            let s2 := { s with conversationHistory :=
                          s.conversationHistory ++
                            [(Role.user, speech), (Role.assistant, reply)] }
            if 180000 ≤ postNow - s.startTime then
              (deleteKey callSid sessions,
               HttpResult.ok [Tw.say cleanReply, Tw.say closingMsg, Tw.hangup])
            else
              (setEntry sessions callSid s2,
               HttpResult.ok [Tw.say cleanReply, Tw.gather])

/-- Persona snapshot fields the call engine reads (the remaining fields only
feed prompt text). -/
structure BusinessInfo where
  businessName : List Char
  languages : List String
deriving DecidableEq, Repr

/-- Entry of the `businessSessions` map. -/
structure BusinessSession where
  businessInfo : Option BusinessInfo
  createdAt : Int
deriving DecidableEq, Repr

/-- One step of the `getActiveSession` scan: keep the candidate with the
later `createdAt` among entries newer than the cutoff, first entry winning
ties. -/
def activeStep (cutoff : Int) (acc : Option String × Int)
    (p : String × BusinessSession) : Option String × Int :=
  if p.2.createdAt > cutoff && p.2.createdAt > acc.2 then
    (some p.1, p.2.createdAt)
  else acc

/-- Embedding of `getActiveSession()`: scan the business sessions in
insertion order keeping the one with the latest `createdAt` among those
created within the last 30 minutes. -/
def getActiveSession (now : Int) (bs : List (String × BusinessSession)) :
    Option String :=
  (bs.foldl (activeStep (now - 30 * 60 * 1000))
    ((none : Option String), (0 : Int))).1

/-- Embedding of the periodic cleanup sweep: sessions older than one hour are
removed. -/
def cleanupSweep (now : Int) (bs : List (String × BusinessSession)) :
    List (String × BusinessSession) :=
  bs.filter (fun p => !(p.2.createdAt < now - 60 * 60 * 1000))

/-- Session-handle selection of `/api/voice/incoming`: the handle mapped to
the dialled number when the mapping exists, else the `getActiveSession`
fallback. -/
def selectSession (numberMap : List (String × String)) (toN : String)
    (now : Int) (bs : List (String × BusinessSession)) : Option String :=
  match numberMap.lookup toN with
  | some sid => some sid
  | none => getActiveSession now bs

/-- Primary-language choice of `/api/voice/incoming`: the mapped code of the
first configured language, defaulting to Dutch. -/
def primaryLanguageOf (bi : BusinessInfo) : String :=
  match bi.languages with
  | [] => "nl-NL"
  | l0 :: _ => (langNameMap l0).getD "nl-NL"

/-- Outcome of an incoming-call webhook. -/
inductive IncomingResult where
  | duplicate
  | trialUsed
  | noSession
  | noBusinessInfo
  | connected
deriving DecidableEq, Repr

/-- State after an incoming-call webhook: the call-session map, the trial
ledger, and the outcome. -/
structure IncomingOut where
  sessions : List (String × CallSession)
  trial : List String
  result : IncomingResult
deriving DecidableEq, Repr

/-- Embedding of `/api/voice/incoming`: duplicate detection, the trial-ledger
gate, session-handle selection, business-info validation, then — only on the
connected path — the trial-ledger insertion and call-session creation, in the
order of the source. -/
def handleIncoming (sessions : List (String × CallSession)) (trial : List String)
    (enabled : Bool) (numberMap : List (String × String))
    (bs : List (String × BusinessSession)) (callSid fromN toN : String)
    (now : Int) : IncomingOut :=
  if (sessions.lookup callSid).isSome then
    ⟨sessions, trial, IncomingResult.duplicate⟩
  else if enabled && trial.contains fromN then
    ⟨sessions, trial, IncomingResult.trialUsed⟩
  else
    match selectSession numberMap toN now bs with
    | none => ⟨sessions, trial, IncomingResult.noSession⟩
    | some sid =>
      match bs.lookup sid with
      | none => ⟨sessions, trial, IncomingResult.noBusinessInfo⟩
      | some sd =>
        match sd.businessInfo with
        | none => ⟨sessions, trial, IncomingResult.noBusinessInfo⟩
        | some bi =>
          let trial2 := if enabled then fromN :: trial else trial
          let newSession : CallSession :=
            { conversationHistory := []
              startTime := now
              fromNumber := fromN
              currentLanguage := primaryLanguageOf bi
              lastDetectedLanguage := none
              languageDetectionCount := 0 }
          ⟨sessions ++ [(callSid, newSession)], trial2, IncomingResult.connected⟩

/-- Canonical text of the language directive the voice prompt instructs the
model to append: an object with the single key `detected_language` and the
code as value. -/
def directiveOf (code : String) : List Char :=
  obr :: dlKey ++ ':' :: ' ' :: '"' :: code.toList ++ '"' :: [cbr]

/-- Utterance messages among the outbound WebSocket messages (as opposed to
`language` control messages). -/
def isUtterance : WsOut → Bool
  | WsOut.text _ => true
  | WsOut.langSwitch _ => false

/-- Session-state invariant of the stream binding: the streak counter is 0
or 1, and it is 0 exactly when there is no pending candidate. -/
def sessionInv (s : CallSession) : Prop :=
  s.languageDetectionCount ≤ 1 ∧
    (s.languageDetectionCount = 0 ↔ s.lastDetectedLanguage = none)

instance (s : CallSession) : Decidable (sessionInv s) := by
  unfold sessionInv
  infer_instance

/-- Modelled from the spec: the fallback selection the specification
describes, "the most recently created unexpired handle", where a handle is
unexpired until the fixed 1-hour TTL enforced by the periodic sweep.  Stated
for comparison with the source function `getActiveSession`, which instead
uses a 30-minute window. -/
def specFallbackSelect (now : Int) (bs : List (String × BusinessSession)) :
    Option String :=
  (bs.foldl (activeStep (now - 60 * 60 * 1000))
    ((none : Option String), (0 : Int))).1

theorem beginsWith_append_self (k t : List Char) : beginsWith (k ++ t) k = true := by
  induction k with
  | nil => cases t <;> rfl
  | cons c cs ih => simp [beginsWith, ih]

theorem hasSub_of_beginsWith {key l : List Char} (h : beginsWith l key = true) :
    hasSub key l = true := by
  cases l with
  | nil => simpa [hasSub] using h
  | cons c rest => simp [hasSub, h]

theorem splitAtClose_append {seg : List Char} (suf : List Char)
    (h : ∀ c ∈ seg, ¬ c = cbr) :
    splitAtClose (seg ++ cbr :: suf) = some (seg, suf) := by
  induction seg with
  | nil => simp [splitAtClose]
  | cons c rest ih =>
    have hc : ¬ c = cbr := h c (List.mem_cons_self c rest)
    have ih2 := ih (fun x hx => h x (List.mem_cons_of_mem c hx))
    simp [splitAtClose, hc, ih2]

theorem findSplit_append_of_no_obr {pre : List Char} (l : List Char)
    (h : ∀ c ∈ pre, ¬ c = obr) :
    findSplit (pre ++ l) =
      (findSplit l).map (fun t => (pre ++ t.1, t.2.1, t.2.2)) := by
  induction pre with
  | nil =>
    simp only [List.nil_append]
    cases hf : findSplit l with
    | none => simp
    | some t => simp
  | cons c rest ih =>
    have hc : ¬ c = obr := h c (List.mem_cons_self c rest)
    have ih2 := ih (fun x hx => h x (List.mem_cons_of_mem c hx))
    cases hf : findSplit l with
    | none =>
      rw [hf] at ih2
      simp [List.cons_append, findSplit, hc, ih2]
    | some t =>
      rw [hf] at ih2
      simp [List.cons_append, findSplit, hc, ih2]

theorem findSplit_none_of_no_obr {l : List Char} (h : ∀ c ∈ l, ¬ c = obr) :
    findSplit l = none := by
  induction l with
  | nil => rfl
  | cons c rest ih =>
    have hc : ¬ c = obr := h c (List.mem_cons_self c rest)
    have ih2 := ih (fun x hx => h x (List.mem_cons_of_mem c hx))
    simp [findSplit, hc, ih2]

theorem dlKey_no_cbr : ∀ c ∈ dlKey, ¬ c = cbr := by decide

theorem findSplit_cons (c : Char) (rest : List Char) :
    findSplit (c :: rest) =
      (if c = obr then
        match splitAtClose rest with
        | some (seg, rem) =>
          if hasSub dlKey seg then some ([], obr :: (seg ++ [cbr]), rem)
          else (findSplit rest).map (fun t => (c :: t.1, t.2.1, t.2.2))
        | none => none
      else (findSplit rest).map (fun t => (c :: t.1, t.2.1, t.2.2))) := rfl

theorem findSplit_directive (code : String) (suf : List Char)
    (hcode : ∀ c ∈ code.toList, ¬ c = cbr) :
    findSplit (directiveOf code ++ suf) =
      some ([], directiveOf code, suf) := by
  have hseg : ∀ c ∈ dlKey ++ (':' :: ' ' :: '"' :: (code.toList ++ ['"'])), ¬ c = cbr := by
    intro c hc
    rcases List.mem_append.mp hc with h | h
    · exact dlKey_no_cbr c h
    · rcases List.mem_cons.mp h with rfl | h
      · decide
      · rcases List.mem_cons.mp h with rfl | h
        · decide
        · rcases List.mem_cons.mp h with rfl | h
          · decide
          · rcases List.mem_append.mp h with h | h
            · exact hcode c h
            · rw [List.mem_singleton] at h
              subst h
              decide
  have hshape : directiveOf code ++ suf =
      obr :: ((dlKey ++ (':' :: ' ' :: '"' :: (code.toList ++ ['"']))) ++ cbr :: suf) := by
    simp [directiveOf]
  have hbegins :
      hasSub dlKey (dlKey ++ (':' :: ' ' :: '"' :: (code.toList ++ ['"']))) = true :=
    hasSub_of_beginsWith (beginsWith_append_self dlKey _)
  rw [hshape]
  rw [findSplit_cons, if_pos (rfl : obr = obr), splitAtClose_append suf hseg]
  simp [hbegins, directiveOf]
  exact hbegins

theorem takeWhile_all_append {p : Char → Bool} {l : List Char} (x : Char)
    (r : List Char) (hl : ∀ c ∈ l, p c = true) (hx : p x = false) :
    (l ++ x :: r).takeWhile p = l := by
  induction l with
  | nil => simp [List.takeWhile_cons, hx]
  | cons c cs ih =>
    have hc : p c = true := hl c (List.mem_cons_self c cs)
    have ih2 := ih (fun y hy => hl y (List.mem_cons_of_mem c hy))
    simp [List.takeWhile_cons, hc, ih2]

theorem dropWhile_all_append {p : Char → Bool} {l : List Char} (x : Char)
    (r : List Char) (hl : ∀ c ∈ l, p c = true) (hx : p x = false) :
    (l ++ x :: r).dropWhile p = x :: r := by
  induction l with
  | nil => simp [List.dropWhile_cons, hx]
  | cons c cs ih =>
    have hc : p c = true := hl c (List.mem_cons_self c cs)
    have ih2 := ih (fun y hy => hl y (List.mem_cons_of_mem c hy))
    simp [List.dropWhile_cons, hc, ih2]

theorem dlKey_cons : dlKey = '"' :: ("detected_language\"").toList := rfl

theorem dropWhile_jsonWs_dlKey_append (t : List Char) :
    (dlKey ++ t).dropWhile isJsonWs = dlKey ++ t := by
  rw [dlKey_cons, List.cons_append, List.dropWhile_cons]
  simp [show isJsonWs '"' = false from rfl]

theorem dropKey_append_self (t : List Char) : dropKey (dlKey ++ t) dlKey = some t := by
  have hgen : ∀ (k l : List Char), dropKey (k ++ l) k = some l := by
    intro k
    induction k with
    | nil => intro l; simp [dropKey]
    | cons c cs ih => intro l; simp [dropKey, ih]
  exact hgen dlKey t

theorem directiveOf_eq (code : String) :
    directiveOf code =
      obr :: (dlKey ++ (':' :: ' ' :: '"' :: (code.toList ++ '"' :: [cbr]))) := by
  simp [directiveOf]

theorem parseDirective_directive (code : String)
    (hq : ∀ c ∈ code.toList, notQuote c = true) :
    parseDirective (directiveOf code) = some code.toList := by
  have htake : (code.toList ++ '"' :: [cbr]).takeWhile notQuote = code.toList :=
    takeWhile_all_append '"' [cbr] hq (by decide)
  have hdrop : (code.toList ++ '"' :: [cbr]).dropWhile notQuote = '"' :: [cbr] :=
    dropWhile_all_append '"' [cbr] hq (by decide)
  rw [directiveOf_eq]
  simp only [parseDirective, if_true]
  rw [dropWhile_jsonWs_dlKey_append, dropKey_append_self]
  simp only [List.dropWhile_cons, show isJsonWs ':' = false from rfl,
    Bool.false_eq_true, if_false, show isJsonWs ' ' = true from rfl, if_true,
    show isJsonWs '"' = false from rfl]
  rw [hdrop]
  simp [show isJsonWs cbr = false from rfl]
  exact htake

theorem removeDirectivesAux_of_none {l : List Char} (h : findSplit l = none) :
    ∀ fuel, removeDirectivesAux fuel l = l := by
  intro fuel
  cases fuel with
  | zero => rfl
  | succ n => simp [removeDirectivesAux, h]

theorem removeDirectives_strips (code : String) (pre suf : List Char)
    (hpre : ∀ c ∈ pre, ¬ c = obr)
    (hsuf : ∀ c ∈ suf, ¬ c = obr)
    (hcode : ∀ c ∈ code.toList, ¬ c = cbr) :
    removeDirectives (pre ++ directiveOf code ++ suf) = pre ++ suf := by
  have h1 : findSplit (pre ++ (directiveOf code ++ suf)) =
      some (pre, directiveOf code, suf) := by
    rw [findSplit_append_of_no_obr _ hpre, findSplit_directive code suf hcode]
    simp
  have h2 : findSplit (pre ++ directiveOf code ++ suf) =
      some (pre, directiveOf code, suf) := by
    rw [List.append_assoc]
    exact h1
  have hsufnone : findSplit suf = none := findSplit_none_of_no_obr hsuf
  unfold removeDirectives
  cases hlen : (pre ++ directiveOf code ++ suf).length with
  | zero =>
    have hnil : (pre ++ directiveOf code ++ suf) = [] :=
      List.length_eq_zero.mp hlen
    rw [hnil] at h2
    simp [findSplit] at h2
  | succ n =>
    simp only [removeDirectivesAux, h2]
    rw [removeDirectivesAux_of_none hsufnone]

theorem lookup_deleteKey (k : String) (m : List (String × CallSession)) :
    (deleteKey k m).lookup k = none := by
  induction m with
  | nil => rfl
  | cons p rest ih =>
    by_cases hp : p.1 = k
    · simpa [deleteKey, List.filter_cons, hp] using ih
    · have hbeq : (k == p.1) = false := by
        simp [BEq.beq]
        exact fun h => hp h.symm
      simpa [deleteKey, List.filter_cons, hp, List.lookup, hbeq] using ih

theorem lookup_append_of_none {l1 l2 : List (String × CallSession)} {k : String}
    (h : l1.lookup k = none) : (l1 ++ l2).lookup k = l2.lookup k := by
  induction l1 with
  | nil => rfl
  | cons p rest ih =>
    by_cases hbeq : (k == p.1) = true
    · simp [List.lookup, hbeq] at h
    · simp only [List.lookup, Bool.not_eq_true] at h ⊢
      rw [Bool.not_eq_true] at hbeq
      rw [hbeq] at h ⊢
      simp only [List.cons_append, List.lookup, hbeq]
      exact ih h

theorem activeFold_spec (cutoff : Int) (bs : List (String × BusinessSession)) :
    ∀ acc : Option String × Int,
      (bs.foldl (activeStep cutoff) acc = acc ∨
        ∃ e ∈ bs, bs.foldl (activeStep cutoff) acc = (some e.1, e.2.createdAt) ∧
          e.2.createdAt > cutoff) ∧
      acc.2 ≤ (bs.foldl (activeStep cutoff) acc).2 ∧
      (∀ e ∈ bs, e.2.createdAt > cutoff →
        e.2.createdAt ≤ (bs.foldl (activeStep cutoff) acc).2) := by
  induction bs with
  | nil =>
    intro acc
    refine ⟨Or.inl rfl, le_refl _, ?_⟩
    intro e he
    exact absurd he (List.not_mem_nil e)
  | cons p rest ih =>
    intro acc
    have hstep : List.foldl (activeStep cutoff) acc (p :: rest) =
        List.foldl (activeStep cutoff) (activeStep cutoff acc p) rest := rfl
    obtain ⟨hres, hmono, hmax⟩ := ih (activeStep cutoff acc p)
    by_cases hcond : p.2.createdAt > cutoff ∧ p.2.createdAt > acc.2
    · have hval : activeStep cutoff acc p = (some p.1, p.2.createdAt) := by
        simp [activeStep, hcond.1, hcond.2]
      refine ⟨?_, ?_, ?_⟩
      · rcases hres with h | ⟨e, he, heq, hgt⟩
        · right
          refine ⟨p, List.mem_cons_self p rest, ?_, hcond.1⟩
          rw [hstep, h, hval]
        · right
          exact ⟨e, List.mem_cons_of_mem p he, by rw [hstep]; exact heq, hgt⟩
      · rw [hstep]
        calc acc.2 ≤ p.2.createdAt := le_of_lt hcond.2
          _ = (activeStep cutoff acc p).2 := by rw [hval]
          _ ≤ _ := hmono
      · intro e he hgt
        rcases List.mem_cons.mp he with rfl | he2
        · rw [hstep]
          calc e.2.createdAt = (activeStep cutoff acc e).2 := by rw [hval]
            _ ≤ _ := hmono
        · rw [hstep]
          exact hmax e he2 hgt
    · have hval : activeStep cutoff acc p = acc := by
        by_cases h1 : p.2.createdAt > cutoff
        · have h2 : ¬ p.2.createdAt > acc.2 := fun h => hcond ⟨h1, h⟩
          simp [activeStep, h2]
        · simp [activeStep, h1]
      rw [hval] at hres hmono hmax
      refine ⟨?_, by rw [hstep, hval]; exact hmono, ?_⟩
      · rcases hres with h | ⟨e, he, heq, hgt⟩
        · left
          rw [hstep, hval, h]
        · right
          exact ⟨e, List.mem_cons_of_mem p he, by rw [hstep, hval]; exact heq, hgt⟩
      · intro e he hgt
        rcases List.mem_cons.mp he with rfl | he2
        · have h2 : ¬ e.2.createdAt > acc.2 := fun h => hcond ⟨hgt, h⟩
          rw [hstep, hval]
          calc e.2.createdAt ≤ acc.2 := le_of_not_lt h2
            _ ≤ _ := hmono
        · rw [hstep, hval]
          exact hmax e he2 hgt

theorem getActiveSession_some (now : Int) (bs : List (String × BusinessSession))
    (sid : String) (h : getActiveSession now bs = some sid) :
    ∃ e ∈ bs, e.1 = sid ∧ e.2.createdAt > now - 30 * 60 * 1000 ∧
      ∀ e2 ∈ bs, e2.2.createdAt > now - 30 * 60 * 1000 →
        e2.2.createdAt ≤ e.2.createdAt := by
  obtain ⟨hres, _, hmax⟩ :=
    activeFold_spec (now - 30 * 60 * 1000) bs ((none : Option String), (0 : Int))
  unfold getActiveSession at h
  rcases hres with h0 | ⟨e, he, heq, hgt⟩
  · rw [h0] at h
    simp at h
  · refine ⟨e, he, ?_, hgt, ?_⟩
    · rw [heq] at h
      simpa using h
    · intro e2 he2 hgt2
      have := hmax e2 he2 hgt2
      rw [heq] at this
      exact this

theorem getActiveSession_none (now : Int) (bs : List (String × BusinessSession))
    (h : ∀ e ∈ bs, ¬ e.2.createdAt > now - 30 * 60 * 1000) :
    getActiveSession now bs = none := by
  obtain ⟨hres, _, _⟩ :=
    activeFold_spec (now - 30 * 60 * 1000) bs ((none : Option String), (0 : Int))
  unfold getActiveSession
  rcases hres with h0 | ⟨e, he, _, hgt⟩
  · rw [h0]
  · exact absurd hgt (h e he)

theorem sessionInv_detectUpdate (s : CallSession) (lang : Option String)
    (h : sessionInv s) : sessionInv (detectUpdate s lang).1 := by
  cases lang with
  | none => exact h
  | some d =>
    by_cases hd : d = ""
    · simpa [detectUpdate, hd] using h
    · by_cases hcur : fullLangCode d = s.currentLanguage
      · simp [detectUpdate, hd, hcur, sessionInv]
      · by_cases hlast : s.lastDetectedLanguage = some (fullLangCode d)
        · by_cases hcnt : 2 ≤ s.languageDetectionCount + 1
          · simp [detectUpdate, hd, hcur, hlast, hcnt, sessionInv]
          · have h1 : s.languageDetectionCount + 1 ≤ 1 := by omega
            simp only [detectUpdate, hd, if_false, hcur, hlast, if_pos rfl,
              if_true, hcnt, if_neg hcnt]
            constructor
            · simpa [hd, hcur, hlast, hcnt] using h1
            · simp [hd, hcur, hlast, hcnt, hlast]
        · simp [detectUpdate, hd, hcur, hlast, sessionInv]

theorem detectUpdate_candidate (s : CallSession) (b : String)
    (hb : ¬ b = "")
    (hfull : ¬ fullLangCode b = s.currentLanguage)
    (hlast : ¬ s.lastDetectedLanguage = some (fullLangCode b)) :
    detectUpdate s (some b) =
      ({ s with lastDetectedLanguage := some (fullLangCode b),
                languageDetectionCount := 1 }, none) := by
  simp only [detectUpdate, if_neg hb, if_neg hfull, if_neg hlast]

theorem detectUpdate_confirm (s : CallSession) (b : String)
    (hb : ¬ b = "")
    (hfull : ¬ fullLangCode b = s.currentLanguage)
    (hlast : s.lastDetectedLanguage = some (fullLangCode b))
    (hcnt : 1 ≤ s.languageDetectionCount) :
    detectUpdate s (some b) =
      ({ s with currentLanguage := fullLangCode b, languageDetectionCount := 0,
                lastDetectedLanguage := none }, some (fullLangCode b)) := by
  have h2 : 2 ≤ s.languageDetectionCount + 1 := by omega
  simp only [detectUpdate, if_neg hb, if_neg hfull, hlast, if_pos rfl, if_pos h2]
  simp

theorem claudeForce_of_no_match (s1 : CallSession) (reply : List Char)
    (h : findDirective reply = none) : claudeForce s1 reply = (s1, []) := by
  simp [claudeForce, h]

theorem wsTurn_success_no_directive (s : CallSession) (vp reply : List Char)
    (lang : Option String) (preNow postNow : Int)
    (htime : preNow - s.startTime < 180000)
    (hnod : findSplit reply = none) :
    wsTurn s vp lang preNow (some reply) postNow =
      (some { (detectUpdate s lang).1 with conversationHistory :=
                (detectUpdate s lang).1.conversationHistory ++
                  [(Role.user, vp), (Role.assistant, reply)] },
       (match (detectUpdate s lang).2 with
        | some code => [WsOut.langSwitch code]
        | none => []) ++
         [WsOut.text (stripEmojisAndFormatting (jsTrim (removeDirectives reply)))]) := by
  have hn : ¬ 180000 ≤ preNow - s.startTime := not_le.mpr htime
  have hcf : ∀ s1, claudeForce s1 reply = (s1, []) := fun s1 =>
    claudeForce_of_no_match s1 reply (by simp [findDirective, hnod])
  simp only [wsTurn, if_neg hn, hcf]
  simp

/-- Freshly created call session used by the concrete instances below. -/
def baseSession : CallSession :=
  { conversationHistory := []
    startTime := 0
    fromNumber := "+31600000000"
    currentLanguage := "nl-NL"
    lastDetectedLanguage := none
    languageDetectionCount := 0 }

/-- First caller utterance of the concrete two-turn run. -/
def c1vp1 : List Char := ("Hello there").toList

/-- Second caller utterance of the concrete two-turn run. -/
def c1vp2 : List Char := ("Can you help me").toList

/-- Model reply of the first concrete turn. -/
def c1r1 : List Char := ("Hallo!").toList

/-- Model reply of the second concrete turn. -/
def c1r2 : List Char := ("Sure!").toList

/-- Session state after the first concrete turn: candidate recorded, streak
one, no switch yet. -/
def c1Mid : CallSession :=
  { baseSession with
      lastDetectedLanguage := some (fullLangCode "en")
      languageDetectionCount := 1
      conversationHistory := baseSession.conversationHistory ++
        [(Role.user, c1vp1), (Role.assistant, c1r1)] }

/-- Session state after the second concrete turn: switched to English,
streak and candidate reset. -/
def c1End : CallSession :=
  { baseSession with
      currentLanguage := fullLangCode "en"
      lastDetectedLanguage := none
      languageDetectionCount := 0
      conversationHistory := (baseSession.conversationHistory ++
        [(Role.user, c1vp1), (Role.assistant, c1r1)]) ++
        [(Role.user, c1vp2), (Role.assistant, c1r2)] }

/-- C1: starting from a session whose pending candidate differs from the
newly detected language `b` (in particular from a fresh session), two
consecutive stream turns that both detect `b`, with `b` mapping to a code
different from the active language, produce exactly one language switch: the
first turn emits no switch and leaves `activeLanguage` unchanged (it only
records the candidate with streak 1), and the second turn emits exactly one
`language` control message, sets `currentLanguage` to the detected code, and
resets the streak counter and the pending candidate. -/
theorem C1_two_consecutive_detections_one_switch
    (s : CallSession) (b : String) (vp1 vp2 r1 r2 : List Char)
    (t1 pt1 t2 pt2 : Int)
    (hb : ¬ b = "")
    (hfull : ¬ fullLangCode b = s.currentLanguage)
    (hlast : ¬ s.lastDetectedLanguage = some (fullLangCode b))
    (ht1 : t1 - s.startTime < 180000)
    (ht2 : t2 - s.startTime < 180000)
    (hr1 : findSplit r1 = none)
    (hr2 : findSplit r2 = none) :
    wsTurn s vp1 (some b) t1 (some r1) pt1 =
      (some { s with lastDetectedLanguage := some (fullLangCode b),
                     languageDetectionCount := 1,
                     conversationHistory := s.conversationHistory ++
                       [(Role.user, vp1), (Role.assistant, r1)] },
       [WsOut.text (stripEmojisAndFormatting (jsTrim (removeDirectives r1)))]) ∧
    wsTurn { s with lastDetectedLanguage := some (fullLangCode b),
                    languageDetectionCount := 1,
                    conversationHistory := s.conversationHistory ++
                      [(Role.user, vp1), (Role.assistant, r1)] }
        vp2 (some b) t2 (some r2) pt2 =
      (some { s with currentLanguage := fullLangCode b,
                     lastDetectedLanguage := none,
                     languageDetectionCount := 0,
                     conversationHistory := (s.conversationHistory ++
                       [(Role.user, vp1), (Role.assistant, r1)]) ++
                       [(Role.user, vp2), (Role.assistant, r2)] },
       [WsOut.langSwitch (fullLangCode b),
        WsOut.text (stripEmojisAndFormatting (jsTrim (removeDirectives r2)))]) := by
  constructor
  · rw [wsTurn_success_no_directive s vp1 r1 (some b) t1 pt1 ht1 hr1,
      detectUpdate_candidate s b hb hfull hlast]
    simp
  · rw [wsTurn_success_no_directive
        { s with lastDetectedLanguage := some (fullLangCode b),
                 languageDetectionCount := 1,
                 conversationHistory := s.conversationHistory ++
                   [(Role.user, vp1), (Role.assistant, r1)] }
        vp2 r2 (some b) t2 pt2 ht2 hr2,
      detectUpdate_confirm
        { s with lastDetectedLanguage := some (fullLangCode b),
                 languageDetectionCount := 1,
                 conversationHistory := s.conversationHistory ++
                   [(Role.user, vp1), (Role.assistant, r1)] }
        b hb hfull rfl (le_refl 1)]
    simp

/-- C1 witness: the two-turn run at a fresh Dutch session with `en` detected
on both turns. -/
theorem C1_witness :
    (¬ ("en" : String) = "" ∧ ¬ fullLangCode "en" = baseSession.currentLanguage ∧
     ¬ baseSession.lastDetectedLanguage = some (fullLangCode "en") ∧
     (1000 : Int) - baseSession.startTime < 180000 ∧
     (2000 : Int) - baseSession.startTime < 180000 ∧
     findSplit c1r1 = none ∧ findSplit c1r2 = none) ∧
    wsTurn baseSession c1vp1 (some "en") 1000 (some c1r1) 1500 =
      (some c1Mid,
       [WsOut.text (stripEmojisAndFormatting (jsTrim (removeDirectives c1r1)))]) ∧
    wsTurn c1Mid c1vp2 (some "en") 2000 (some c1r2) 2500 =
      (some c1End,
       [WsOut.langSwitch (fullLangCode "en"),
        WsOut.text (stripEmojisAndFormatting (jsTrim (removeDirectives c1r2)))]) :=
  ⟨⟨by decide, by decide, by decide, by decide, by decide, by decide, by decide⟩,
   (C1_two_consecutive_detections_one_switch baseSession "en" c1vp1 c1vp2 c1r1 c1r2
      1000 1500 2000 2500 (by decide) (by decide) (by decide) (by decide)
      (by decide) (by decide) (by decide)).1,
   (C1_two_consecutive_detections_one_switch baseSession "en" c1vp1 c1vp2 c1r1 c1r2
      1000 1500 2000 2500 (by decide) (by decide) (by decide) (by decide)
      (by decide) (by decide) (by decide)).2⟩

/-- Session with a pending candidate and streak 1, used to exercise the
no-detection turn. -/
def c5S : CallSession :=
  { baseSession with lastDetectedLanguage := some "en-US", languageDetectionCount := 1 }

/-- C5 counterexample: a turn with no detected language does NOT clear the
pending streak — the candidate and the counter survive unchanged (the
JavaScript block is guarded by `if (detectedLang)` and is skipped entirely),
refuting the claim that they are reset. -/
theorem C5_counterexample :
    (detectUpdate c5S none).1.currentLanguage = c5S.currentLanguage ∧
    (detectUpdate c5S none).1.languageDetectionCount = 1 ∧
    (detectUpdate c5S none).1.lastDetectedLanguage = some "en-US" ∧
    ¬ ((detectUpdate c5S none).1.languageDetectionCount = 0 ∧
       (detectUpdate c5S none).1.lastDetectedLanguage = none) := by
  decide

/-- C5 amended: a turn in which no language is detected (absent or empty
hint) leaves the whole session unchanged — `activeLanguage` is untouched as
claimed, but the pending language and streak counter are preserved rather
than cleared. -/
theorem C5_no_detection_leaves_state_unchanged :
    ∀ s : CallSession, detectUpdate s none = (s, none) ∧
      detectUpdate s (some "") = (s, none) := by
  intro s
  exact ⟨rfl, by simp [detectUpdate]⟩

/-- Sanitizer input whose line starts with two bullet markers. -/
def sanEx1 : List Char := ("- - x").toList

/-- Sanitizer input containing a heading marker, a bullet marker, bold
markers and an emoji. -/
def sanEx2 : List Char :=
  ("# Title").toList ++ '\n' :: ("- item **bold** ").toList ++ [Char.ofNat 128512]

/-- Markers that must be absent from sanitized output: emoticon-range
emoji, asterisks, hashes, backticks, and the hyphen bullet. -/
def markerFree (l : List Char) : Bool :=
  l.all (fun c =>
    !(0x1F600 ≤ c.toNat && c.toNat ≤ 0x1F64F) && c ≠ '*' && c ≠ '#' &&
      c ≠ btk && c ≠ '-')

/-- C6 counterexample: sanitization is not idempotent.  The multiline bullet
regex `^[\s]*[-•*]\s` removes only the first marker of a line per pass, so
sanitizing the already-sanitized "- x" (obtained from "- - x") changes it
again. -/
theorem C6_counterexample :
    stripEmojisAndFormatting sanEx1 = ("- x").toList ∧
    stripEmojisAndFormatting (stripEmojisAndFormatting sanEx1) = ("x").toList ∧
    ¬ stripEmojisAndFormatting (stripEmojisAndFormatting sanEx1) =
        stripEmojisAndFormatting sanEx1 := by
  decide

/-- C6 amended: sanitization is not idempotent in general (a line beginning
with repeated list markers loses one marker per pass, see the
counterexample); for the string containing an emoji, bold markers, a heading
marker and a bullet marker, the output is plain prose with none of those
markers, and sanitizing that output again leaves it unchanged. -/
theorem C6_markers_removed_not_idempotent :
    stripEmojisAndFormatting sanEx2 = ("Title item bold").toList ∧
    markerFree (stripEmojisAndFormatting sanEx2) = true ∧
    stripEmojisAndFormatting (stripEmojisAndFormatting sanEx2) =
      stripEmojisAndFormatting sanEx2 := by
  decide

/-- Session one confirming turn away from a switch to English. -/
def c2S : CallSession :=
  { baseSession with lastDetectedLanguage := some "en-US", languageDetectionCount := 1 }

/-- Model reply of the concrete switching turn. -/
def c2r : List Char := ("One moment!").toList

/-- C2 counterexample: on a confirmed switch the stream binding emits one
`language` control message followed by the single sanitized reply — one
utterance, not the four-leg transfer script (announcement in the old voice,
pause, greeting in the new voice, reply) the claim describes. -/
theorem C2_counterexample :
    (wsTurn c2S (("hello").toList) (some "en") 1000 (some c2r) 1500).2 =
      [WsOut.langSwitch "en-US", WsOut.text c2r] ∧
    ((wsTurn c2S (("hello").toList) (some "en") 1000 (some c2r) 1500).2.countP
        isUtterance) = 1 ∧
    ¬ ((wsTurn c2S (("hello").toList) (some "en") 1000 (some c2r) 1500).2.countP
        isUtterance) = 4 := by
  decide

/-- C2 amended: on a confirmed streak switch from the active language to `B`
the stream binding emits exactly a `set-language` control message for `B`
followed by the single sanitized reply utterance — no transfer announcement,
no pause, no greeting leg exists in the code; and when no switch occurs the
output is the single sanitized reply alone. -/
theorem C2_switch_emits_control_and_reply :
    (∀ (s : CallSession) (vp reply : List Char) (lang : Option String)
       (preNow postNow : Int) (B : String),
       preNow - s.startTime < 180000 →
       (detectUpdate s lang).2 = some B →
       findSplit reply = none →
       wsTurn s vp lang preNow (some reply) postNow =
         (some { (detectUpdate s lang).1 with conversationHistory :=
                   (detectUpdate s lang).1.conversationHistory ++
                     [(Role.user, vp), (Role.assistant, reply)] },
          [WsOut.langSwitch B,
           WsOut.text (stripEmojisAndFormatting (jsTrim (removeDirectives reply)))])) ∧
    (∀ (s : CallSession) (vp reply : List Char) (lang : Option String)
       (preNow postNow : Int),
       preNow - s.startTime < 180000 →
       (detectUpdate s lang).2 = none →
       findSplit reply = none →
       wsTurn s vp lang preNow (some reply) postNow =
         (some { (detectUpdate s lang).1 with conversationHistory :=
                   (detectUpdate s lang).1.conversationHistory ++
                     [(Role.user, vp), (Role.assistant, reply)] },
          [WsOut.text (stripEmojisAndFormatting (jsTrim (removeDirectives reply)))])) := by
  constructor
  · intro s vp reply lang preNow postNow B htime hsw hnod
    rw [wsTurn_success_no_directive s vp reply lang preNow postNow htime hnod, hsw]
    simp
  · intro s vp reply lang preNow postNow htime hsw hnod
    rw [wsTurn_success_no_directive s vp reply lang preNow postNow htime hnod, hsw]
    simp

/-- C2 witness: the amended statement at the concrete switching turn and at a
concrete non-switching turn. -/
theorem C2_witness :
    ((1000 : Int) - c2S.startTime < 180000 ∧
     (detectUpdate c2S (some "en")).2 = some "en-US" ∧
     findSplit c2r = none ∧ (detectUpdate baseSession none).2 = none) ∧
    wsTurn c2S (("hello").toList) (some "en") 1000 (some c2r) 1500 =
      (some { (detectUpdate c2S (some "en")).1 with conversationHistory :=
                (detectUpdate c2S (some "en")).1.conversationHistory ++
                  [(Role.user, ("hello").toList), (Role.assistant, c2r)] },
       [WsOut.langSwitch "en-US",
        WsOut.text (stripEmojisAndFormatting (jsTrim (removeDirectives c2r)))]) ∧
    wsTurn baseSession (("hello").toList) none 1000 (some c2r) 1500 =
      (some { (detectUpdate baseSession none).1 with conversationHistory :=
                (detectUpdate baseSession none).1.conversationHistory ++
                  [(Role.user, ("hello").toList), (Role.assistant, c2r)] },
       [WsOut.text (stripEmojisAndFormatting (jsTrim (removeDirectives c2r)))]) :=
  ⟨⟨by decide, by decide, by decide, by decide⟩,
   C2_switch_emits_control_and_reply.1 c2S (("hello").toList) c2r (some "en")
     1000 1500 "en-US" (by decide) (by decide) (by decide),
   C2_switch_emits_control_and_reply.2 baseSession (("hello").toList) c2r none
     1000 1500 (by decide) (by decide) (by decide)⟩

/-- C3 counterexample: a stream-binding turn that starts inside the budget
but whose completion returns after the 3-minute budget has elapsed still
sends the normal reply and keeps the session — there is no post-completion
time check in the WebSocket binding, refuting the claim that the condition is
re-checked after the completion in both bindings. -/
theorem C3_counterexample :
    (180000 : Int) ≤ 1000000 - baseSession.startTime ∧
    wsTurn baseSession (("hi").toList) none 1000 (some (("ok").toList)) 1000000 =
      (some { baseSession with conversationHistory :=
                [(Role.user, ("hi").toList), (Role.assistant, ("ok").toList)] },
       [WsOut.text (("ok").toList)]) := by
  decide

/-- C3 amended: when the pre-turn check finds the 3-minute budget exhausted,
both bindings speak the closing message and delete the session, and any later
turn or stream connection for that call id is rejected as not found; the
request/response binding re-checks the clock after the completion returns and
then also closes, but the stream binding performs no post-completion check —
its result is independent of the clock value at completion time. -/
theorem C3_budget_enforcement :
    (∀ (sessions : List (String × CallSession)) (sid : String)
       (s : CallSession) (speech : Option (List Char)) (preNow : Int)
       (api : ApiOutcome) (postNow : Int),
       sessions.lookup sid = some s → 180000 ≤ preNow - s.startTime →
       httpProcess sessions sid speech preNow api postNow =
         (deleteKey sid sessions, HttpResult.ok [Tw.say closingMsg, Tw.hangup]) ∧
       (deleteKey sid sessions).lookup sid = none) ∧
    (∀ (sessions : List (String × CallSession)) (sid : String)
       (speech : Option (List Char)) (preNow : Int) (api : ApiOutcome)
       (postNow : Int),
       sessions.lookup sid = none →
       httpProcess sessions sid speech preNow api postNow =
         (sessions, HttpResult.ok [Tw.say expiredMsg, Tw.hangup])) ∧
    (∀ (sessions : List (String × CallSession)) (sid : String),
       sessions.lookup sid = none → wsConnect sessions sid = false) ∧
    (∀ (s : CallSession) (vp : List Char) (lang : Option String) (preNow : Int)
       (api : Option (List Char)) (postNow : Int),
       180000 ≤ preNow - s.startTime →
       wsTurn s vp lang preNow api postNow = (none, [WsOut.text closingMsg])) ∧
    (∀ (sessions : List (String × CallSession)) (sid : String)
       (s : CallSession) (speech reply : List Char) (preNow postNow : Int),
       sessions.lookup sid = some s → preNow - s.startTime < 180000 →
       ¬ speech = [] → 180000 ≤ postNow - s.startTime →
       httpProcess sessions sid (some speech) preNow (ApiOutcome.success reply)
           postNow =
         (deleteKey sid sessions,
          HttpResult.ok [Tw.say (stripEmojisAndFormatting reply),
            Tw.say closingMsg, Tw.hangup])) ∧
    (∀ (s : CallSession) (vp : List Char) (lang : Option String) (preNow : Int)
       (api : Option (List Char)) (postNow1 postNow2 : Int),
       wsTurn s vp lang preNow api postNow1 = wsTurn s vp lang preNow api postNow2) := by
  refine ⟨?_, ?_, ?_, ?_, ?_, ?_⟩
  · intro sessions sid s speech preNow api postNow hlk htime
    exact ⟨by simp [httpProcess, hlk, htime], lookup_deleteKey sid sessions⟩
  · intro sessions sid speech preNow api postNow hlk
    simp [httpProcess, hlk]
  · intro sessions sid hlk
    simp [wsConnect, hlk]
  · intro s vp lang preNow api postNow htime
    simp [wsTurn, htime]
  · intro sessions sid s speech reply preNow postNow hlk hpre hsp hpost
    simp [httpProcess, hlk, not_le.mpr hpre, hsp, hpost]
  · intro s vp lang preNow api postNow1 postNow2
    rfl

/-- C3 witness: the amended statement at a concrete expired turn, a concrete
unknown call id, and a concrete post-completion expiry in the HTTP binding. -/
theorem C3_witness :
    ([("CA1", baseSession)].lookup "CA1" = some baseSession ∧
     (180000 : Int) ≤ 200000 - baseSession.startTime ∧
     (1000 : Int) - baseSession.startTime < 180000 ∧
     ¬ ("hello").toList = [] ∧
     ([] : List (String × CallSession)).lookup "CA9" = none) ∧
    httpProcess [("CA1", baseSession)] "CA1" (some (("hello").toList)) 200000
        ApiOutcome.timeout 200001 =
      (deleteKey "CA1" [("CA1", baseSession)],
       HttpResult.ok [Tw.say closingMsg, Tw.hangup]) ∧
    (deleteKey "CA1" [("CA1", baseSession)]).lookup "CA1" = none ∧
    httpProcess [] "CA9" (some (("hello").toList)) 1000
        (ApiOutcome.success (("ok").toList)) 2000 =
      ([], HttpResult.ok [Tw.say expiredMsg, Tw.hangup]) ∧
    wsConnect [] "CA9" = false ∧
    wsTurn baseSession (("hi").toList) none 200000 (some (("ok").toList)) 200001 =
      (none, [WsOut.text closingMsg]) ∧
    httpProcess [("CA1", baseSession)] "CA1" (some (("hello").toList)) 1000
        (ApiOutcome.success (("ok").toList)) 200000 =
      (deleteKey "CA1" [("CA1", baseSession)],
       HttpResult.ok [Tw.say (stripEmojisAndFormatting (("ok").toList)),
         Tw.say closingMsg, Tw.hangup]) :=
  ⟨⟨by decide, by decide, by decide, by decide, by decide⟩,
   (C3_budget_enforcement.1 [("CA1", baseSession)] "CA1" baseSession
      (some (("hello").toList)) 200000 ApiOutcome.timeout 200001 (by decide)
      (by decide)).1,
   (C3_budget_enforcement.1 [("CA1", baseSession)] "CA1" baseSession
      (some (("hello").toList)) 200000 ApiOutcome.timeout 200001 (by decide)
      (by decide)).2,
   C3_budget_enforcement.2.1 [] "CA9" (some (("hello").toList)) 1000
     (ApiOutcome.success (("ok").toList)) 2000 (by decide),
   C3_budget_enforcement.2.2.1 [] "CA9" (by decide),
   C3_budget_enforcement.2.2.2.1 baseSession (("hi").toList) none 200000
     (some (("ok").toList)) 200001 (by decide),
   C3_budget_enforcement.2.2.2.2.1 [("CA1", baseSession)] "CA1" baseSession
     (("hello").toList) (("ok").toList) 1000 200000 (by decide) (by decide)
     (by decide) (by decide)⟩

/-- C4: the claim is the clear intent of the code but the code has a slip.  The
HTTP binding does race the completion against a 10-second timer
(`httpApiDeadlineMs`), and its `catch` block is written to speak the
"brief delay" filler — but that block first reads `apiStartTime`, a `const`
declared inside the `try` block and out of scope in the `catch`, so a timeout
(or any completion error) throws a `ReferenceError` and the request crashes
with no TwiML response instead of returning the filler; the session map and
history are left unchanged.  The stream binding does not wrap the completion
in any deadline at all (`wsApiDeadlineMs`). -/
theorem C4_timeout_branch_crashes :
    httpApiDeadlineMs = some 10000 ∧ wsApiDeadlineMs = none ∧
    (∀ (sessions : List (String × CallSession)) (sid : String)
       (s : CallSession) (speech : List Char) (preNow postNow : Int),
       sessions.lookup sid = some s → preNow - s.startTime < 180000 →
       ¬ speech = [] →
       httpProcess sessions sid (some speech) preNow ApiOutcome.timeout postNow =
         (sessions, HttpResult.crashed)) := by
  refine ⟨rfl, rfl, ?_⟩
  intro sessions sid s speech preNow postNow hlk hpre hsp
  simp [httpProcess, hlk, not_le.mpr hpre, hsp]

/-- C4 witness: the timeout outcome at a concrete in-budget turn crashes the
request and leaves the session map unchanged. -/
theorem C4_witness :
    ([("CA1", baseSession)].lookup "CA1" = some baseSession ∧
     (1000 : Int) - baseSession.startTime < 180000 ∧ ¬ ("hi").toList = []) ∧
    httpProcess [("CA1", baseSession)] "CA1" (some (("hi").toList)) 1000
        ApiOutcome.timeout 15000 = ([("CA1", baseSession)], HttpResult.crashed) :=
  ⟨⟨by decide, by decide, by decide⟩,
   C4_timeout_branch_crashes.2.2 [("CA1", baseSession)] "CA1" baseSession
     (("hi").toList) 1000 15000 (by decide) (by decide) (by decide)⟩

theorem findSplit_embedded_directive (code : String) (pre suf : List Char)
    (hpre : ∀ c ∈ pre, ¬ c = obr)
    (hcode : ∀ c ∈ code.toList, ¬ c = cbr) :
    findSplit (pre ++ directiveOf code ++ suf) =
      some (pre, directiveOf code, suf) := by
  rw [List.append_assoc, findSplit_append_of_no_obr _ hpre,
    findSplit_directive code suf hcode]
  simp

/-- C7: when the model reply embeds a `detected_language` directive naming a
mapped language different from the current one, the stream binding switches
to it on that same turn regardless of the streak state (the streak fields of
an arbitrary session are untouched by the record update), emits the
`set-language` control message, and the spoken text is built from the reply
with the directive stripped. -/
theorem C7_explicit_directive_forces_switch
    (s : CallSession) (vp pre suf : List Char) (code newLang : String)
    (preNow postNow : Int)
    (hpre : ∀ c ∈ pre, ¬ c = obr)
    (hsuf : ∀ c ∈ suf, ¬ c = obr)
    (hq : ∀ c ∈ code.toList, notQuote c = true)
    (hcb : ∀ c ∈ code.toList, ¬ c = cbr)
    (hne : ¬ code = "")
    (hmap : LANGUAGE_CODE_MAP code = some newLang)
    (hdiff : ¬ newLang = s.currentLanguage)
    (htime : preNow - s.startTime < 180000) :
    wsTurn s vp none preNow (some (pre ++ directiveOf code ++ suf)) postNow =
      (some { s with currentLanguage := newLang,
                     conversationHistory := s.conversationHistory ++
                       [(Role.user, vp),
                        (Role.assistant, pre ++ directiveOf code ++ suf)] },
       [WsOut.langSwitch newLang,
        WsOut.text (stripEmojisAndFormatting (jsTrim (pre ++ suf)))]) := by
  have hn : ¬ 180000 ≤ preNow - s.startTime := not_le.mpr htime
  have hfd : findDirective (pre ++ directiveOf code ++ suf) =
      some (directiveOf code) := by
    simp only [findDirective,
      findSplit_embedded_directive code pre suf hpre hcb, Option.map_some']
  have hparse : parseDirective (directiveOf code) = some code.toList :=
    parseDirective_directive code hq
  have hmk : String.mk code.toList = code := rfl
  have hnil : ¬ code.toList = [] := by
    intro h
    apply hne
    rw [← hmk, h]
  have hcf : claudeForce s (pre ++ directiveOf code ++ suf) =
      ({ s with currentLanguage := newLang }, [WsOut.langSwitch newLang]) := by
    simp only [claudeForce, hfd, hparse]
    rw [if_neg hnil, hmk, hmap]
    simp [hdiff]
  have hrm : removeDirectives (pre ++ directiveOf code ++ suf) = pre ++ suf :=
    removeDirectives_strips code pre suf hpre hsuf hcb
  simp only [wsTurn, if_neg hn, detectUpdate]
  rw [hcf, hrm]
  simp

/-- Prefix of the concrete reply carrying a directive. -/
def c7pre : List Char := ("Of course! ").toList

/-- Complete concrete reply of the directive turn. -/
def c7reply : List Char := c7pre ++ directiveOf "en" ++ []

/-- C7 witness: the directive `detected_language: en` inside a concrete Dutch
turn switches to English immediately even though the streak state is empty,
and the spoken text is the reply with the directive stripped. -/
theorem C7_witness :
    ((∀ c ∈ c7pre, ¬ c = obr) ∧ (∀ c ∈ ([] : List Char), ¬ c = obr) ∧
     (∀ c ∈ ("en").toList, notQuote c = true) ∧
     (∀ c ∈ ("en").toList, ¬ c = cbr) ∧ ¬ ("en" : String) = "" ∧
     LANGUAGE_CODE_MAP "en" = some "en-US" ∧
     ¬ ("en-US" : String) = baseSession.currentLanguage ∧
     (1000 : Int) - baseSession.startTime < 180000) ∧
    wsTurn baseSession (("hi").toList) none 1000
        (some (c7pre ++ directiveOf "en" ++ [])) 1500 =
      (some { baseSession with currentLanguage := "en-US",
                               conversationHistory := baseSession.conversationHistory ++
                                 [(Role.user, ("hi").toList),
                                  (Role.assistant, c7pre ++ directiveOf "en" ++ [])] },
       [WsOut.langSwitch "en-US",
        WsOut.text (stripEmojisAndFormatting (jsTrim (c7pre ++ [])))]) :=
  ⟨⟨by decide, by decide, by decide, by decide, by decide, by decide, by decide,
    by decide⟩,
   C7_explicit_directive_forces_switch baseSession (("hi").toList) c7pre []
     "en" "en-US" 1000 1500 (by decide) (by decide) (by decide) (by decide)
     (by decide) (by decide) (by decide) (by decide)⟩

/-- Business handle aged 45 minutes at the reference instant 10000000:
younger than the 1-hour sweep TTL but older than the 30-minute selection
window. -/
def c8Handle : BusinessSession :=
  { businessInfo := some { businessName := ("Cafe").toList, languages := ["English"] },
    createdAt := 7300000 }

/-- C8 counterexample: a handle 45 minutes old survives the hourly sweep
(it is unexpired in the sense of the claim) and the spec-modelled fallback would
select it, but the `getActiveSession` of the code only looks back 30 minutes and
returns nothing, so the incoming call is rejected. -/
theorem C8_counterexample :
    getActiveSession 10000000 [("s1", c8Handle)] = none ∧
    specFallbackSelect 10000000 [("s1", c8Handle)] = some "s1" ∧
    cleanupSweep 10000000 [("s1", c8Handle)] = [("s1", c8Handle)] ∧
    (handleIncoming [] [] false [] [("s1", c8Handle)] "CA1" "+31" "+1"
        10000000).result = IncomingResult.noSession := by
  decide

/-- C8 amended: the adapter selects the handle mapped to the dialled number
when the mapping exists; otherwise it selects the most recently created
handle no older than 30 minutes (handles between 30 minutes and the 1-hour
sweep TTL old are retained but never selected); and when nothing is selected
the call is rejected with no call session created and the trial ledger
unchanged. -/
theorem C8_selection_and_rejection :
    (∀ (nm : List (String × String)) (toN : String) (now : Int)
       (bs : List (String × BusinessSession)) (sid : String),
       nm.lookup toN = some sid → selectSession nm toN now bs = some sid) ∧
    (∀ (nm : List (String × String)) (toN : String) (now : Int)
       (bs : List (String × BusinessSession)),
       nm.lookup toN = none →
       selectSession nm toN now bs = getActiveSession now bs) ∧
    (∀ (now : Int) (bs : List (String × BusinessSession)) (sid : String),
       getActiveSession now bs = some sid →
       ∃ e ∈ bs, e.1 = sid ∧ e.2.createdAt > now - 30 * 60 * 1000 ∧
         ∀ e2 ∈ bs, e2.2.createdAt > now - 30 * 60 * 1000 →
           e2.2.createdAt ≤ e.2.createdAt) ∧
    (∀ (now : Int) (bs : List (String × BusinessSession)),
       (∀ e ∈ bs, ¬ e.2.createdAt > now - 30 * 60 * 1000) →
       getActiveSession now bs = none) ∧
    (∀ (sessions : List (String × CallSession)) (trial : List String)
       (enabled : Bool) (nm : List (String × String))
       (bs : List (String × BusinessSession)) (callSid fromN toN : String)
       (now : Int),
       sessions.lookup callSid = none →
       ¬ (enabled = true ∧ fromN ∈ trial) →
       selectSession nm toN now bs = none →
       handleIncoming sessions trial enabled nm bs callSid fromN toN now =
         ⟨sessions, trial, IncomingResult.noSession⟩) := by
  refine ⟨?_, ?_, ?_, ?_, ?_⟩
  · intro nm toN now bs sid h
    simp [selectSession, h]
  · intro nm toN now bs h
    simp [selectSession, h]
  · intro now bs sid h
    exact getActiveSession_some now bs sid h
  · intro now bs h
    exact getActiveSession_none now bs h
  · intro sessions trial enabled nm bs callSid fromN toN now h1 h2 h3
    simp [handleIncoming, h1, h2, h3]

/-- Handle created 1000 seconds before the reference instant, well inside the
30-minute window. -/
def c8Fresh : BusinessSession :=
  { businessInfo := some { businessName := ("Cafe").toList, languages := ["English"] },
    createdAt := 9000000 }

/-- C8 witness: the amended statement at a concrete mapped number, a concrete
in-window fallback, and a concrete empty deployment that rejects the call. -/
theorem C8_witness :
    (([("+1", "s1")] : List (String × String)).lookup "+1" = some "s1" ∧
     getActiveSession 10000000 [("a", c8Fresh)] = some "a" ∧
     ([] : List (String × CallSession)).lookup "CA1" = none ∧
     ¬ ((false : Bool) = true ∧ "+31" ∈ ([] : List String)) ∧
     selectSession [] "+1" 10000000 [] = none) ∧
    selectSession [("+1", "s1")] "+1" 10000000 [] = some "s1" ∧
    (∃ e ∈ [("a", c8Fresh)], e.1 = "a" ∧
      e.2.createdAt > 10000000 - 30 * 60 * 1000 ∧
      ∀ e2 ∈ [("a", c8Fresh)], e2.2.createdAt > 10000000 - 30 * 60 * 1000 →
        e2.2.createdAt ≤ e.2.createdAt) ∧
    handleIncoming [] [] false [] [] "CA1" "+31" "+1" 10000000 =
      ⟨[], [], IncomingResult.noSession⟩ :=
  ⟨⟨by decide, by decide, by decide, by decide, by decide⟩,
   C8_selection_and_rejection.1 [("+1", "s1")] "+1" 10000000 [] "s1" (by decide),
   C8_selection_and_rejection.2.2.1 10000000 [("a", c8Fresh)] "a" (by decide),
   C8_selection_and_rejection.2.2.2.2 [] [] false [] [] "CA1" "+31" "+1"
     10000000 (by decide) (by decide) (by decide)⟩

theorem lookup_append_some {l1 l2 : List (String × CallSession)} {k : String}
    {v : CallSession} (h : l1.lookup k = some v) :
    (l1 ++ l2).lookup k = some v := by
  induction l1 with
  | nil => simp [List.lookup] at h
  | cons p rest ih =>
    by_cases hbeq : (k == p.1) = true
    · simp only [List.lookup, hbeq] at h
      simp only [List.cons_append, List.lookup, hbeq]
      exact h
    · rw [Bool.not_eq_true] at hbeq
      simp only [List.lookup, hbeq] at h
      simp only [List.cons_append, List.lookup, hbeq]
      exact ih h

theorem claudeForce_fst_inv (s1 : CallSession) (reply : List Char)
    (h : sessionInv s1) : sessionInv (claudeForce s1 reply).1 := by
  unfold claudeForce
  generalize (match findDirective reply with
    | some m => parseDirective m
    | none => none) = dlc
  cases dlc with
  | none => simpa using h
  | some v =>
    by_cases hv : v = []
    · simpa [hv] using h
    · cases hmap : LANGUAGE_CODE_MAP (String.mk v) with
      | none => simpa [hv, hmap] using h
      | some nl =>
        by_cases hnl : nl = s1.currentLanguage
        · simpa [hv, hmap, hnl] using h
        · simp only [hv, hmap, if_neg hv, if_neg hnl]
          exact h

/-- C9: the streak invariant — the counter is 0 or 1 and it is 0 exactly when
no candidate is pending — is preserved by every handled stream message (the
counter reaches the threshold 2 only transiently inside the switching turn,
which resets both fields, and the model-directed forced switch touches
neither field), and it holds for every session the incoming-call handler adds
to the registry. -/
theorem C9_streak_invariant :
    (∀ (s : CallSession) (vp : List Char) (lang : Option String) (preNow : Int)
       (api : Option (List Char)) (postNow : Int) (s2 : CallSession),
       sessionInv s → (wsTurn s vp lang preNow api postNow).1 = some s2 →
       sessionInv s2) ∧
    (∀ (sessions : List (String × CallSession)) (trial : List String)
       (enabled : Bool) (nm : List (String × String))
       (bs : List (String × BusinessSession)) (callSid fromN toN : String)
       (now : Int) (k : String) (s2 : CallSession),
       ((handleIncoming sessions trial enabled nm bs callSid fromN toN
           now).sessions).lookup k = some s2 →
       sessions.lookup k = some s2 ∨ sessionInv s2) := by
  constructor
  · intro s vp lang preNow api postNow s2 hinv heq
    by_cases ht : 180000 ≤ preNow - s.startTime
    · simp [wsTurn, ht] at heq
    · have hd := sessionInv_detectUpdate s lang hinv
      cases api with
      | none =>
        simp only [wsTurn, if_neg ht, Option.some.injEq] at heq
        rw [← heq]
        exact hd
      | some reply =>
        simp only [wsTurn, if_neg ht, Option.some.injEq] at heq
        rw [← heq]
        exact claudeForce_fst_inv (detectUpdate s lang).1 reply hd
  · intro sessions trial enabled nm bs callSid fromN toN now k s2 heq
    cases h1 : sessions.lookup callSid with
    | some v =>
      left
      simpa [handleIncoming, h1] using heq
    | none =>
      by_cases h2 : enabled = true ∧ fromN ∈ trial
      · left
        simpa [handleIncoming, h1, h2] using heq
      · cases h3 : selectSession nm toN now bs with
        | none =>
          left
          simpa [handleIncoming, h1, h2, h3] using heq
        | some sid =>
          cases h4 : bs.lookup sid with
          | none =>
            left
            simpa [handleIncoming, h1, h2, h3, h4] using heq
          | some sd =>
            cases h5 : sd.businessInfo with
            | none =>
              left
              simpa [handleIncoming, h1, h2, h3, h4, h5] using heq
            | some bi =>
              rw [show (handleIncoming sessions trial enabled nm bs callSid
                  fromN toN now).sessions =
                  sessions ++ [(callSid,
                    { conversationHistory := []
                      startTime := now
                      fromNumber := fromN
                      currentLanguage := primaryLanguageOf bi
                      lastDetectedLanguage := none
                      languageDetectionCount := 0 })] by
                simp [handleIncoming, h1, h2, h3, h4, h5]] at heq
              cases h6 : sessions.lookup k with
              | some v =>
                left
                have h8 : (sessions ++ [(callSid,
                    ({ conversationHistory := []
                       startTime := now
                       fromNumber := fromN
                       currentLanguage := primaryLanguageOf bi
                       lastDetectedLanguage := none
                       languageDetectionCount := 0 } : CallSession))]).lookup k =
                    some v :=
                  lookup_append_some h6
                rw [h8] at heq
                exact heq
              | none =>
                right
                rw [lookup_append_of_none h6] at heq
                by_cases h7 : (k == callSid) = true
                · simp only [List.lookup, h7, Option.some.injEq] at heq
                  rw [← heq]
                  simp [sessionInv]
                · rw [Bool.not_eq_true] at h7
                  simp [List.lookup, h7] at heq

/-- Session after the witness turn of C9. -/
def c9Out : CallSession :=
  { baseSession with
      currentLanguage := "en-US"
      conversationHistory := [(Role.user, ("hi").toList),
        (Role.assistant, ("ok!").toList)] }

/-- C9 witness: the invariant at a concrete switching turn. -/
theorem C9_witness :
    (sessionInv c2S ∧
     (wsTurn c2S (("hi").toList) (some "en") 1000 (some (("ok!").toList))
        1500).1 = some c9Out) ∧
    sessionInv c9Out :=
  ⟨⟨by decide, by decide⟩,
   C9_streak_invariant.1 c2S (("hi").toList) (some "en") 1000
     (some (("ok!").toList)) 1500 c9Out (by decide) (by decide)⟩

/-- C10: when the incoming-call handler rejects a call because no business
session handle is selected or the selected handle has no business info, the
trial ledger and the call-session map are unchanged — the caller has not
consumed a trial and no session exists for the call id. -/
theorem C10_rejected_call_consumes_nothing :
    ∀ (sessions : List (String × CallSession)) (trial : List String)
      (enabled : Bool) (nm : List (String × String))
      (bs : List (String × BusinessSession)) (callSid fromN toN : String)
      (now : Int),
      ((handleIncoming sessions trial enabled nm bs callSid fromN toN
          now).result = IncomingResult.noSession ∨
       (handleIncoming sessions trial enabled nm bs callSid fromN toN
          now).result = IncomingResult.noBusinessInfo) →
      (handleIncoming sessions trial enabled nm bs callSid fromN toN
          now).sessions = sessions ∧
      (handleIncoming sessions trial enabled nm bs callSid fromN toN
          now).trial = trial := by
  intro sessions trial enabled nm bs callSid fromN toN now h
  cases h1 : sessions.lookup callSid with
  | some v => simp [handleIncoming, h1] at h
  | none =>
    by_cases h2 : enabled = true ∧ fromN ∈ trial
    · simp [handleIncoming, h1, h2] at h
    · cases h3 : selectSession nm toN now bs with
      | none => simp [handleIncoming, h1, h2, h3]
      | some sid =>
        cases h4 : bs.lookup sid with
        | none => simp [handleIncoming, h1, h2, h3, h4]
        | some sd =>
          cases h5 : sd.businessInfo with
          | none => simp [handleIncoming, h1, h2, h3, h4, h5]
          | some bi => simp [handleIncoming, h1, h2, h3, h4, h5] at h

/-- C10 witness: a concrete rejected call (no handle at all) leaves the empty
ledger and the empty session map unchanged. -/
theorem C10_witness :
    ((handleIncoming [] [] true [] [] "CA1" "+31" "+1" 5).result =
        IncomingResult.noSession ∨
     (handleIncoming [] [] true [] [] "CA1" "+31" "+1" 5).result =
        IncomingResult.noBusinessInfo) ∧
    ((handleIncoming [] [] true [] [] "CA1" "+31" "+1" 5).sessions = [] ∧
     (handleIncoming [] [] true [] [] "CA1" "+31" "+1" 5).trial = []) :=
  ⟨Or.inl (by decide),
   C10_rejected_call_consumes_nothing [] [] true [] [] "CA1" "+31" "+1" 5
     (Or.inl (by decide))⟩

end YourAISolution
